import Mathlib

/-!
Shallow embedding of `src/mcp_servers/tau2_mock_airbnb/server.py`.

Modelling conventions:
* Calendar dates (ISO `YYYY-MM-DD` strings in the source, advanced by
  `timedelta(days=1)`) are modelled as `Nat` day numbers; the date range
  `[check_in, check_out)` becomes `[ci, co)` over `Nat`, and
  `nights = (end - start).days` becomes the guard `co ≤ ci` for the
  source's `nights <= 0` check.
* Python dicts keyed by id strings become association lists; `d.get(k)`
  / `k in d` become `findKey`; in-place mutation of a value becomes
  `updateKey`.  Booking ids `BOOK%03d` are modelled by their numeric
  suffix (`get_next_booking_id` takes the max suffix and adds 1).
* Each `@mcp.tool` call loads the database file, works on it, and saves
  only at the end on success; a `raise` abandons the in-memory copy.  So
  a mutating tool is a function `Db → ... → Db × Except String β` where
  the returned `Db` is the file state after the call.
* `int(x * 0.12)` / `int(y * 0.08)` on the integer prices of this
  database truncate toward zero and agree with exact natural floor
  division `x * 12 / 100` / `y * 8 / 100` (0.12 and 0.08 round up as
  doubles, and the exact rationals 12x/100, 8y/100 are never within
  float error below an integer), which is how they are embedded.
-/

/-- One calendar day entry: `{"status": ..., "price_per_night": ...}`. -/
structure DayEntry where
  status : String
  price_per_night : Nat
deriving DecidableEq

/-- A property's `availability` map: date → day entry (absent = not offered). -/
def Calendar : Type := Nat → Option DayEntry

/-- A property: `capacity.guests` and the availability calendar. -/
structure Property where
  capacity_guests : Nat
  availability : Calendar

/-- A user: registered payment method ids and the list of booking ids. -/
structure User where
  payment_methods : List String
  bookings : List Nat
deriving DecidableEq

/-- A booking record as built by `create_booking` / mutated by `cancel_booking`. -/
structure Booking where
  booking_id : Nat
  user_id : String
  property_id : String
  check_in_date : Nat
  check_out_date : Nat
  nights : Nat
  guest_count : Nat
  status : String
  total_price : Nat
  booking_date : String
  payment_method_id : String
  special_requests : String
  cancellation_reason : Option String
  cancellation_date : Option String
deriving DecidableEq

/-- A review record as built by `add_review`. -/
structure Review where
  review_id : Nat
  booking_id : Nat
  user_id : String
  property_id : String
  rating : Nat
  comment : String
deriving DecidableEq

/-- The database aggregate stored in `db.json`. -/
structure Db where
  properties : List (String × Property)
  users : List (String × User)
  bookings : List (Nat × Booking)
  reviews : List (Nat × Review)

/-- Dictionary lookup (`d.get(k)` / `k in d`) on an association list. -/
def findKey {κ α : Type} [DecidableEq κ] : List (κ × α) → κ → Option α
  | [], _ => none
  | (k', v) :: t, k => if k' = k then some v else findKey t k

/-- In-place mutation of the value stored under a key (`d[k].f = ...`). -/
def updateKey {κ α : Type} [DecidableEq κ] (l : List (κ × α)) (k : κ) (f : α → α) :
    List (κ × α) :=
  l.map fun p => if p.1 = k then (p.1, f p.2) else p

/-- `get_next_booking_id`: max numeric suffix of existing booking ids, plus 1. -/
def nextBookingId (db : Db) : Nat :=
  (db.bookings.map (·.1)).foldr max 0 + 1

/-- The message of the `ValueError` raised for a failing date: the source
raises the same `f"Property not available on {date_str}"` both when the date
is absent from the availability map and when its status is not `available`. -/
def notAvailableMsg (d : Nat) : String :=
  "Property not available on " ++ toString d

/-- The availability-scanning `while` loop shared by `create_booking`
(lines 200–209) and `calculate_booking_cost` (lines 430–442): walk the dates
`start, start+1, ...` (`count` of them), failing on the first date that is
absent or not `available`, otherwise collecting `(date, price_per_night)`. -/
def scanRange (avail : Calendar) (start : Nat) : Nat → Except String (List (Nat × Nat))
  | 0 => .ok []
  | n + 1 =>
    match avail start with
    | none => .error (notAvailableMsg start)
    | some day =>
      if day.status ≠ "available" then .error (notAvailableMsg start)
      else
        match scanRange avail (start + 1) n with
        | .error e => .error e
        | .ok rest => .ok ((start, day.price_per_night) :: rest)

/-- `property_data["availability"][d]["status"] = st`, skipping an absent date
(the skip is explicit in `cancel_booking`'s `if date_str in ...` guard; in
`create_booking` every date of the range was just checked present). -/
def setDay (avail : Calendar) (d : Nat) (st : String) : Calendar :=
  fun x => if x = d then (avail d).map (fun e => { e with status := st }) else avail x

/-- The date-marking `while` loop: set `count` consecutive dates from `start`
to status `st`. -/
def setRange (avail : Calendar) (st : String) (start : Nat) : Nat → Calendar
  | 0 => avail
  | n + 1 => setRange (setDay avail start st) st (start + 1) n

/-- Cost breakdown computed at `server.py` lines 444–447. -/
structure CostBreakdown where
  subtotal : Nat
  service_fee : Nat
  cleaning_fee : Nat
  taxes : Nat
  total : Nat
deriving DecidableEq

/-- The fee computation of `calculate_booking_cost`: 12% service fee and 8%
tax, each truncated toward zero (`int(...)`), fixed cleaning fee 50. -/
def computeCost (nightlyPrices : List Nat) : CostBreakdown :=
  let subtotal := nightlyPrices.sum
  let service_fee := subtotal * 12 / 100
  let cleaning_fee := 50
  let taxes := (subtotal + service_fee + cleaning_fee) * 8 / 100
  { subtotal := subtotal
    service_fee := service_fee
    cleaning_fee := cleaning_fee
    taxes := taxes
    total := subtotal + service_fee + cleaning_fee + taxes }

/-- Return value of `calculate_booking_cost`. -/
structure QuoteResult where
  property_id : String
  check_in_date : Nat
  check_out_date : Nat
  nights : Nat
  nightly_costs : List (Nat × Nat)
  subtotal : Nat
  service_fee : Nat
  cleaning_fee : Nat
  taxes : Nat
  total : Nat
deriving DecidableEq

/-- `calculate_booking_cost` (lines 396–460): read-only quote for a range. -/
def calculateBookingCost (db : Db) (property_id : String) (ci co : Nat) :
    Except String QuoteResult :=
  match findKey db.properties property_id with
  | none => .error ("Property " ++ property_id ++ " not found")
  | some property_data =>
    if co ≤ ci then .error "Check-out date must be after check-in date"
    else
      match scanRange property_data.availability ci (co - ci) with
      | .error e => .error e
      | .ok nightly =>
        let c := computeCost (nightly.map (·.2))
        .ok { property_id := property_id
              check_in_date := ci
              check_out_date := co
              nights := co - ci
              nightly_costs := nightly
              subtotal := c.subtotal
              service_fee := c.service_fee
              cleaning_fee := c.cleaning_fee
              taxes := c.taxes
              total := c.total }

/-- `create_booking` (lines 144–242).  Returns the database file state after
the call together with the result: a `raise` leaves the file unchanged, a
success saves the mutated aggregate.  `today` stands for
`datetime.now().strftime("%Y-%m-%d")`. -/
def createBooking (db : Db) (user_id property_id : String) (ci co : Nat)
    (guest_count : Nat) (payment_method_id special_requests today : String) :
    Db × Except String Booking :=
  match findKey db.users user_id with
  | none => (db, .error ("User " ++ user_id ++ " not found"))
  | some user =>
    match findKey db.properties property_id with
    | none => (db, .error ("Property " ++ property_id ++ " not found"))
    | some property_data =>
      if payment_method_id ∉ user.payment_methods then
        (db, .error ("Payment method " ++ payment_method_id ++ " not found for user"))
      else if property_data.capacity_guests < guest_count then
        (db, .error ("Property can only accommodate " ++
          toString property_data.capacity_guests ++ " guests"))
      else if co ≤ ci then
        (db, .error "Check-out date must be after check-in date")
      else
        match scanRange property_data.availability ci (co - ci) with
        | .error e => (db, .error e)
        | .ok nightly =>
          let bid := nextBookingId db
          let booking : Booking :=
            { booking_id := bid
              user_id := user_id
              property_id := property_id
              check_in_date := ci
              check_out_date := co
              nights := co - ci
              guest_count := guest_count
              status := "confirmed"
              total_price := (nightly.map (·.2)).sum
              booking_date := today
              payment_method_id := payment_method_id
              special_requests := special_requests
              cancellation_reason := none
              cancellation_date := none }
          let db' : Db :=
            { db with
              bookings := (bid, booking) :: db.bookings
              users := updateKey db.users user_id
                (fun u => { u with bookings := u.bookings ++ [bid] })
              properties := updateKey db.properties property_id
                (fun p => { p with
                  availability := setRange p.availability "booked" ci (co - ci) }) }
          (db', .ok booking)

/-- `cancel_booking` (lines 281–323).  The status flip happens before the
`db["properties"][...]` index, so a missing property raises `KeyError` before
`save_db` and the file is unchanged.  `today` stands for `datetime.now()`. -/
def cancelBooking (db : Db) (booking_id : Nat) (reason today : String) :
    Db × Except String Booking :=
  match findKey db.bookings booking_id with
  | none => (db, .error ("Booking " ++ toString booking_id ++ " not found"))
  | some booking =>
    if booking.status = "cancelled" then
      (db, .error "Booking is already cancelled")
    else if booking.status = "completed" then
      (db, .error "Cannot cancel completed booking")
    else
      let booking' : Booking :=
        { booking with
          status := "cancelled"
          cancellation_reason := some reason
          cancellation_date := some today }
      match findKey db.properties booking.property_id with
      | none => (db, .error ("KeyError: " ++ booking.property_id))
      | some _ =>
        let db' : Db :=
          { db with
            bookings := updateKey db.bookings booking_id (fun _ => booking')
            properties := updateKey db.properties booking.property_id
              (fun p => { p with
                availability := setRange p.availability "available"
                  booking.check_in_date
                  (booking.check_out_date - booking.check_in_date) }) }
        (db', .ok booking')

/-- `get_property_details` (lines 116–128): `db["properties"].get(pid, {})`;
`none` models the empty-dict default. -/
def getPropertyDetails (db : Db) (property_id : String) : Option Property :=
  findKey db.properties property_id

/-- `get_user_profile` (lines 130–142): `db["users"].get(uid, {})`. -/
def getUserProfile (db : Db) (user_id : String) : Option User :=
  findKey db.users user_id

/-- `get_booking_details` (lines 244–256): `db["bookings"].get(bid, {})`. -/
def getBookingDetails (db : Db) (booking_id : Nat) : Option Booking :=
  findKey db.bookings booking_id

/-- `get_user_bookings` (lines 258–279): `[]` for an unknown user, else the
user's booking ids resolved against the booking collection, skipping ids that
do not resolve. -/
def getUserBookings (db : Db) (user_id : String) : List Booking :=
  match findKey db.users user_id with
  | none => []
  | some user => user.bookings.filterMap (fun bid => findKey db.bookings bid)

/-- Whether an `Except` result is a success. -/
def exOk {ε α : Type} : Except ε α → Bool
  | .ok _ => true
  | .error _ => false

/-- A date whose entry exists with status `available` (the condition the
scanning loop requires of every date). -/
def goodDay (avail : Calendar) (d : Nat) : Prop :=
  ∃ e, avail d = some e ∧ e.status = "available"

/-- `d` lies in the half-open range `[ci, co)`. -/
def dateIn (ci co d : Nat) : Prop := ci ≤ d ∧ d < co

/-- A booking that still blocks its dates: status is not `cancelled`. -/
def activeB (b : Booking) : Prop := b.status ≠ "cancelled"

/-- Date `d` is marked `booked` on property `pid` in `db`. -/
def bookedOn (db : Db) (pid : String) (d : Nat) : Prop :=
  ∃ p e, findKey db.properties pid = some p ∧ p.availability d = some e ∧
    e.status = "booked"

/-- Some date of `[ci, co)` is absent or unavailable. -/
def badRange (avail : Calendar) (ci co : Nat) : Prop :=
  ∃ d, ci ≤ d ∧ d < co ∧ ¬ goodDay avail d

/-- The empty aggregate `load_db` returns when `db.json` does not exist. -/
def emptyDb : Db := { properties := [], users := [], bookings := [], reviews := [] }

/-- A sample calendar: dates 0–4 offered and available at 100 per night. -/
def sampleAvail : Calendar :=
  fun d => if d < 5 then some { status := "available", price_per_night := 100 } else none

/-- A sample property with guest capacity 4. -/
def sampleProperty : Property :=
  { capacity_guests := 4, availability := sampleAvail }

/-- A sample database: one property, one user with one payment method. -/
def sampleDb : Db :=
  { properties := [("P1", sampleProperty)]
    users := [("U1", { payment_methods := ["PM1"], bookings := [] })]
    bookings := []
    reviews := [] }

/-- `sampleDb` after booking property P1 for the range `[1, 3)`. -/
def bookedDb : Db := (createBooking sampleDb "U1" "P1" 1 3 2 "PM1" "" "D0").1

/-- The booking record that booking produces. -/
def bkSample : Booking :=
  { booking_id := 1
    user_id := "U1"
    property_id := "P1"
    check_in_date := 1
    check_out_date := 3
    nights := 2
    guest_count := 2
    status := "confirmed"
    total_price := 200
    booking_date := "D0"
    payment_method_id := "PM1"
    special_requests := ""
    cancellation_reason := none
    cancellation_date := none }

/-- `bookedDb` after cancelling that booking. -/
def cancelledDb : Db := (cancelBooking bookedDb 1 "changed plans" "D1").1

/-- A property that does not offer date 0 at all (only date 1). -/
def absentProp : Property :=
  { capacity_guests := 4
    availability := fun d =>
      if d = 1 then some { status := "available", price_per_night := 100 } else none }

/-- A database whose property P1 does not offer date 0 at all. -/
def dbAbsent : Db :=
  { properties := [("P1", absentProp)]
    users := [("U1", { payment_methods := ["PM1"], bookings := [] })]
    bookings := []
    reviews := [] }

/-- A property offering date 0 with status `booked`. -/
def bookedProp : Property :=
  { capacity_guests := 4
    availability := fun d =>
      if d = 0 then some { status := "booked", price_per_night := 100 } else none }

/-- A database whose property P1 offers date 0 but with status `booked`. -/
def dbBooked : Db :=
  { properties := [("P1", bookedProp)]
    users := [("U1", { payment_methods := ["PM1"], bookings := [] })]
    bookings := []
    reviews := [] }

/-- Arguments of one `book` tool call. -/
structure BookReq where
  user_id : String
  property_id : String
  check_in : Nat
  check_out : Nat
  guest_count : Nat
  payment_method_id : String
  special_requests : String
  today : String

/-- Run one `create_booking` call against a given loaded snapshot. -/
def runCall (db : Db) (r : BookReq) : Db × Except String Booking :=
  createBooking db r.user_id r.property_id r.check_in r.check_out r.guest_count
    r.payment_method_id r.special_requests r.today

/-- State of the file plus two in-flight `book` calls A and B: each call's
loaded snapshot (`load_db` at its start) and its eventual result. -/
structure TwoCallState where
  file : Db
  snapA : Option Db
  snapB : Option Db
  resA : Option (Except String Booking)
  resB : Option (Except String Booking)

/-- Interleaving events of the two calls: `load_db` at call entry, and the
rest of the call body (validation against the snapshot, then `save_db` on
success; a `raise` performs no save). -/
inductive BookEvent where
  | loadA
  | loadB
  | commitA
  | commitB

/-- Effect of one event on the shared file.  A commit before the matching
load is a no-op (the call has not started). -/
def stepEvent (ra rb : BookReq) (s : TwoCallState) : BookEvent → TwoCallState
  | .loadA => { s with snapA := some s.file }
  | .loadB => { s with snapB := some s.file }
  | .commitA =>
    match s.snapA with
    | none => s
    | some dbA =>
      let out := runCall dbA ra
      { s with
        resA := some out.2
        file := match out.2 with | .ok _ => out.1 | .error _ => s.file }
  | .commitB =>
    match s.snapB with
    | none => s
    | some dbB =>
      let out := runCall dbB rb
      { s with
        resB := some out.2
        file := match out.2 with | .ok _ => out.1 | .error _ => s.file }

/-- Run a schedule of interleaved events from an initial file state. -/
def runSchedule (ra rb : BookReq) (db : Db) (evs : List BookEvent) : TwoCallState :=
  evs.foldl (stepEvent ra rb) { file := db, snapA := none, snapB := none,
                                resA := none, resB := none }

/-- Request A of the concurrency scenario: book P1 for `[1, 3)`. -/
def reqA : BookReq :=
  { user_id := "U1", property_id := "P1", check_in := 1, check_out := 3
    guest_count := 2, payment_method_id := "PM1", special_requests := "", today := "D0" }

/-- Request B of the concurrency scenario: book P1 for the overlapping `[2, 4)`. -/
def reqB : BookReq :=
  { user_id := "U1", property_id := "P1", check_in := 2, check_out := 4
    guest_count := 2, payment_method_id := "PM1", special_requests := "", today := "D0" }

/-- The state invariant of claim C1: every non-cancelled booking's dates are
marked `booked` on its property, and no two non-cancelled bookings on the
same property overlap. -/
structure DbInv (db : Db) : Prop where
  booked : ∀ x ∈ db.bookings, activeB x.2 →
    ∀ d, dateIn x.2.check_in_date x.2.check_out_date d → bookedOn db x.2.property_id d
  disjoint : db.bookings.Pairwise fun x y =>
    activeB x.2 → activeB y.2 → x.2.property_id = y.2.property_id →
    ∀ d, ¬ (dateIn x.2.check_in_date x.2.check_out_date d ∧
            dateIn y.2.check_in_date y.2.check_out_date d)

/-- One mutating tool call on the database file. -/
inductive Step : Db → Db → Prop where
  | book (u pid : String) (ci co g : Nat) (pm sp t : String) (db : Db) :
      Step db (createBooking db u pid ci co g pm sp t).1
  | cancel (bid : Nat) (r t : String) (db : Db) :
      Step db (cancelBooking db bid r t).1

/-- Database states reachable by sequences of `create_booking` /
`cancel_booking` calls (failed calls leave the file unchanged). -/
def Reachable : Db → Db → Prop := Relation.ReflTransGen Step

/-- One `calculate_booking_cost` tool call at the file level: the call loads
the file, computes and returns; the source function contains no mutating
statement and never calls `save_db`, so the file is unchanged afterwards. -/
def quoteToolCall (fs : Db) (pid : String) (ci co : Nat) :
    Db × Except String QuoteResult :=
  (fs, calculateBookingCost fs pid ci co)

/-- `n` successive quote tool calls; each call reloads the then-current file. -/
def runQuotes (pid : String) (ci co : Nat) : Db → Nat → Db × List (Except String QuoteResult)
  | fs, 0 => (fs, [])
  | fs, n + 1 =>
    let r := quoteToolCall fs pid ci co
    let rest := runQuotes pid ci co r.1 n
    (rest.1, r.2 :: rest.2)

theorem findKey_updateKey_self {κ α : Type} [DecidableEq κ]
    (l : List (κ × α)) (k : κ) (f : α → α) :
    findKey (updateKey l k f) k = (findKey l k).map f := by
  induction l with
  | nil => rfl
  | cons p t ih =>
    obtain ⟨k', v⟩ := p
    simp only [updateKey, List.map_cons]
    by_cases h : k' = k
    · subst h
      rw [if_pos rfl]
      simp only [findKey, if_pos rfl]
      rfl
    · rw [if_neg h]
      simp only [findKey, if_neg h]
      exact ih

theorem findKey_updateKey_ne {κ α : Type} [DecidableEq κ]
    (l : List (κ × α)) (k k' : κ) (f : α → α) (h : k' ≠ k) :
    findKey (updateKey l k f) k' = findKey l k' := by
  induction l with
  | nil => rfl
  | cons p t ih =>
    obtain ⟨k0, v⟩ := p
    simp only [updateKey, List.map_cons]
    by_cases h0 : k0 = k
    · rw [if_pos h0]
      have hk0 : k0 ≠ k' := fun hh => h (by rw [← hh, h0])
      simp only [findKey, if_neg hk0]
      exact ih
    · rw [if_neg h0]
      by_cases h1 : k0 = k'
      · simp only [findKey, if_pos h1]
      · simp only [findKey, if_neg h1]
        exact ih

theorem findKey_mem {κ α : Type} [DecidableEq κ]
    (l : List (κ × α)) (k : κ) (v : α) (h : findKey l k = some v) : (k, v) ∈ l := by
  induction l with
  | nil => simp [findKey] at h
  | cons p t ih =>
    obtain ⟨k', v'⟩ := p
    by_cases h0 : k' = k
    · subst h0
      rw [findKey, if_pos rfl] at h
      cases h
      exact List.mem_cons_self _ _
    · rw [findKey, if_neg h0] at h
      exact List.mem_cons_of_mem _ (ih h)

theorem scanRange_ok_iff (avail : Calendar) (s n : Nat) :
    exOk (scanRange avail s n) = true ↔ ∀ d, s ≤ d → d < s + n → goodDay avail d := by
  induction n generalizing s with
  | zero =>
    simp only [scanRange, exOk, true_iff]
    intro d h1 h2
    omega
  | succ n ih =>
    rw [scanRange]
    constructor
    · intro h d hd hdn
      split at h
      next heq => simp [exOk] at h
      next day heq =>
        split at h
        next hst => simp [exOk] at h
        next hst =>
          rcases Nat.eq_or_lt_of_le hd with he | hlt
          · exact ⟨day, he ▸ heq, not_not.mp hst⟩
          · split at h
            next e0 hrec => simp [exOk] at h
            next rest hrec =>
              have hok : exOk (scanRange avail (s + 1) n) = true := by rw [hrec]; rfl
              exact (ih (s + 1)).mp hok d hlt (by omega)
    · intro h
      obtain ⟨day, hav, hst⟩ := h s (le_refl s) (by omega)
      have hok : exOk (scanRange avail (s + 1) n) = true :=
        (ih (s + 1)).mpr (fun d hd hdn => h d (by omega) (by omega))
      split
      next heq => rw [heq] at hav; cases hav
      next day' heq =>
        rw [heq] at hav
        cases hav
        rw [if_neg (not_not.mpr hst)]
        split
        next e0 hrec => rw [hrec] at hok; simp [exOk] at hok
        next rest hrec => rfl

theorem scanRange_error_shape (avail : Calendar) (s n : Nat) (e : String)
    (h : scanRange avail s n = .error e) :
    ∃ d, s ≤ d ∧ d < s + n ∧ e = notAvailableMsg d ∧ ¬ goodDay avail d ∧
      ∀ d', s ≤ d' → d' < d → goodDay avail d' := by
  induction n generalizing s with
  | zero => simp [scanRange] at h
  | succ n ih =>
    rw [scanRange] at h
    split at h
    next heq =>
      cases h
      refine ⟨s, le_refl s, by omega, rfl, ?_, by omega⟩
      rintro ⟨e0, he0, _⟩
      rw [heq] at he0
      cases he0
    next day heq =>
      split at h
      next hst =>
        cases h
        refine ⟨s, le_refl s, by omega, rfl, ?_, by omega⟩
        rintro ⟨e0, he0, hst0⟩
        rw [heq] at he0
        cases he0
        exact hst hst0
      next hst =>
        split at h
        next e0 hrec =>
          cases h
          obtain ⟨d, hd1, hd2, hd3, hd4, hd5⟩ := ih (s + 1) hrec
          refine ⟨d, by omega, by omega, hd3, hd4, ?_⟩
          intro d' hd' hdd'
          rcases Nat.eq_or_lt_of_le hd' with he' | hlt
          · exact ⟨day, he' ▸ heq, not_not.mp hst⟩
          · exact hd5 d' hlt hdd'
        next rest hrec => cases h

theorem scanRange_firstBad (avail : Calendar) (s n d : Nat)
    (hd : s ≤ d) (hdn : d < s + n) (hbad : ¬ goodDay avail d)
    (hfirst : ∀ d', s ≤ d' → d' < d → goodDay avail d') :
    scanRange avail s n = .error (notAvailableMsg d) := by
  cases hres : scanRange avail s n with
  | ok l =>
    exact absurd ((scanRange_ok_iff avail s n).mp (by rw [hres]; rfl) d hd hdn) hbad
  | error e =>
    obtain ⟨d0, h1, h2, h3, h4, h5⟩ := scanRange_error_shape avail s n e hres
    have hd0 : d0 = d := by
      rcases Nat.lt_trichotomy d0 d with hlt | heq | hgt
      · exact absurd (hfirst d0 h1 hlt) h4
      · exact heq
      · exact absurd (h5 d hd hgt) hbad
    rw [h3, hd0]

theorem setRange_apply (avail : Calendar) (st : String) (s n x : Nat) :
    setRange avail st s n x =
      if s ≤ x ∧ x < s + n then (avail x).map (fun e => { e with status := st })
      else avail x := by
  induction n generalizing avail s with
  | zero =>
    rw [setRange, if_neg (by omega)]
  | succ n ih =>
    rw [setRange, ih]
    by_cases hx : x = s
    · subst hx
      rw [if_neg (by omega), if_pos (by omega)]
      simp [setDay]
    · by_cases hin : s + 1 ≤ x ∧ x < s + 1 + n
      · rw [if_pos hin, if_pos (by omega)]
        simp [setDay, hx]
      · rw [if_neg hin, if_neg (by omega)]
        simp [setDay, hx]

theorem createBooking_shape (db : Db) (u pid : String) (ci co g : Nat) (pm sp t : String) :
    (∃ e, createBooking db u pid ci co g pm sp t = (db, Except.error e)) ∨
    (∃ user p nightly b,
      findKey db.users u = some user ∧
      findKey db.properties pid = some p ∧
      pm ∈ user.payment_methods ∧
      g ≤ p.capacity_guests ∧
      ci < co ∧
      scanRange p.availability ci (co - ci) = Except.ok nightly ∧
      b = { booking_id := nextBookingId db
            user_id := u
            property_id := pid
            check_in_date := ci
            check_out_date := co
            nights := co - ci
            guest_count := g
            status := "confirmed"
            total_price := (nightly.map (·.2)).sum
            booking_date := t
            payment_method_id := pm
            special_requests := sp
            cancellation_reason := none
            cancellation_date := none } ∧
      createBooking db u pid ci co g pm sp t =
        ({ db with
            bookings := (nextBookingId db, b) :: db.bookings
            users := updateKey db.users u
              (fun x => { x with bookings := x.bookings ++ [nextBookingId db] })
            properties := updateKey db.properties pid
              (fun q => { q with
                availability := setRange q.availability "booked" ci (co - ci) }) },
         Except.ok b)) := by
  rw [createBooking]
  split
  · exact Or.inl ⟨_, rfl⟩
  next user hu =>
    split
    · exact Or.inl ⟨_, rfl⟩
    next p hp =>
      by_cases h1 : pm ∉ user.payment_methods
      · rw [if_pos h1]
        exact Or.inl ⟨_, rfl⟩
      · rw [if_neg h1]
        by_cases h2 : p.capacity_guests < g
        · rw [if_pos h2]
          exact Or.inl ⟨_, rfl⟩
        · rw [if_neg h2]
          by_cases h3 : co ≤ ci
          · rw [if_pos h3]
            exact Or.inl ⟨_, rfl⟩
          · rw [if_neg h3]
            split
            · exact Or.inl ⟨_, rfl⟩
            next nightly hrec =>
              exact Or.inr ⟨user, p, nightly, _, hu, hp, not_not.mp h1,
                Nat.not_lt.mp h2, Nat.lt_of_not_le h3, hrec, rfl, rfl⟩

theorem cancelBooking_shape (db : Db) (bid : Nat) (r t : String) :
    (∃ e, cancelBooking db bid r t = (db, Except.error e)) ∨
    (∃ b, findKey db.bookings bid = some b ∧
      b.status ≠ "cancelled" ∧ b.status ≠ "completed" ∧
      (∃ p, findKey db.properties b.property_id = some p) ∧
      cancelBooking db bid r t =
        ({ db with
            bookings := updateKey db.bookings bid (fun _ =>
              { b with
                status := "cancelled"
                cancellation_reason := some r
                cancellation_date := some t })
            properties := updateKey db.properties b.property_id (fun p =>
              { p with
                availability := setRange p.availability "available" b.check_in_date
                  (b.check_out_date - b.check_in_date) }) },
         Except.ok { b with
            status := "cancelled"
            cancellation_reason := some r
            cancellation_date := some t })) := by
  rw [cancelBooking]
  split
  · exact Or.inl ⟨_, rfl⟩
  next b hb =>
    by_cases h1 : b.status = "cancelled"
    · rw [if_pos h1]
      exact Or.inl ⟨_, rfl⟩
    · rw [if_neg h1]
      by_cases h2 : b.status = "completed"
      · rw [if_pos h2]
        exact Or.inl ⟨_, rfl⟩
      · rw [if_neg h2]
        split
        · exact Or.inl ⟨_, rfl⟩
        next p hp =>
          exact Or.inr ⟨b, hb, h1, h2, ⟨p, hp⟩, rfl⟩

theorem createBooking_error_frame (db : Db) (u pid : String) (ci co g : Nat)
    (pm sp t : String) (h : exOk (createBooking db u pid ci co g pm sp t).2 = false) :
    (createBooking db u pid ci co g pm sp t).1 = db := by
  rcases createBooking_shape db u pid ci co g pm sp t with ⟨e, he⟩ | ⟨_, _, _, b, _, _, _, _, _, _, _, he⟩
  · rw [he]
  · rw [he] at h
    simp [exOk] at h

theorem cancelBooking_error_frame (db : Db) (bid : Nat) (r t : String)
    (h : exOk (cancelBooking db bid r t).2 = false) :
    (cancelBooking db bid r t).1 = db := by
  rcases cancelBooking_shape db bid r t with ⟨e, he⟩ | ⟨b, _, _, _, _, he⟩
  · rw [he]
  · rw [he] at h
    simp [exOk] at h

theorem createBooking_ok_of (db : Db) (u pid : String) (ci co g : Nat)
    (pm sp t : String) (user : User) (p : Property)
    (hu : findKey db.users u = some user) (hp : findKey db.properties pid = some p)
    (hpm : pm ∈ user.payment_methods) (hg : g ≤ p.capacity_guests) (hc : ci < co)
    (hgood : ∀ d, ci ≤ d → d < co → goodDay p.availability d) :
    exOk (createBooking db u pid ci co g pm sp t).2 = true := by
  have hok : exOk (scanRange p.availability ci (co - ci)) = true :=
    (scanRange_ok_iff _ _ _).mpr (fun d hd hdn => hgood d hd (by omega))
  rw [createBooking]
  simp only [hu, hp]
  rw [if_neg (not_not.mpr hpm), if_neg (Nat.not_lt.mpr hg), if_neg (Nat.not_le.mpr hc)]
  split
  next e0 hrec => rw [hrec] at hok; simp [exOk] at hok
  next rest hrec => rfl

theorem nat_mul_div_floor (a k m : Nat) :
    Nat.floor ((a : ℚ) * ((k : ℚ) / (m : ℚ))) = a * k / m := by
  rw [show (a : ℚ) * ((k : ℚ) / (m : ℚ)) = ((a * k : ℕ) : ℚ) / ((m : ℕ) : ℚ) by
    push_cast; ring]
  exact Nat.floor_div_eq_div _ _

/-- C3: the cost breakdown satisfies subtotal = sum of nightly prices,
service_fee = floor(subtotal * 0.12), cleaning_fee = 50,
taxes = floor((subtotal + service_fee + cleaning_fee) * 0.08),
total = their sum, all rounding truncating toward zero in that order; for
nightly prices [100, 100] it yields 200 / 24 / 50 / 21 / 295. -/
theorem pricing_formula (prices : List Nat) :
    (computeCost prices).subtotal = prices.sum ∧
    (computeCost prices).service_fee =
      Nat.floor (((computeCost prices).subtotal : ℚ) * (12 / 100)) ∧
    (computeCost prices).cleaning_fee = 50 ∧
    (computeCost prices).taxes =
      Nat.floor ((((computeCost prices).subtotal + (computeCost prices).service_fee +
        (computeCost prices).cleaning_fee : ℕ) : ℚ) * (8 / 100)) ∧
    (computeCost prices).total =
      (computeCost prices).subtotal + (computeCost prices).service_fee +
      (computeCost prices).cleaning_fee + (computeCost prices).taxes ∧
    computeCost [100, 100] =
      { subtotal := 200, service_fee := 24, cleaning_fee := 50, taxes := 21, total := 295 } := by
  refine ⟨rfl, ?_, rfl, ?_, rfl, by decide⟩
  · rw [show ((12 : ℚ) / 100) = (((12 : ℕ) : ℚ) / ((100 : ℕ) : ℚ)) by norm_num,
      nat_mul_div_floor]
    rfl
  · rw [show ((8 : ℚ) / 100) = (((8 : ℕ) : ℚ) / ((100 : ℕ) : ℚ)) by norm_num,
      nat_mul_div_floor]
    rfl

/-- C8: the quote tool is read-only and deterministic: any number of
successive `calculate_booking_cost` calls leaves the database file unchanged
and returns the same result every time. -/
theorem quote_readonly_and_deterministic (db : Db) (pid : String) (ci co n : Nat) :
    (runQuotes pid ci co db n).1 = db ∧
    (runQuotes pid ci co db n).2 = List.replicate n (calculateBookingCost db pid ci co) := by
  induction n with
  | zero => exact ⟨rfl, rfl⟩
  | succ n ih =>
    rw [runQuotes]
    exact ⟨ih.1, by rw [List.replicate_succ]; exact congrArg _ ih.2⟩

/-- C10: unknown-id lookups return an empty record (modelled `none`) or the
empty list rather than raising, while the mutating operations raise NotFound
errors for unknown ids. -/
theorem unknown_id_lookups_return_empty (db : Db) (pid uid : String) (bid : Nat)
    (ci co g : Nat) (pm sp t r : String) :
    (findKey db.properties pid = none → getPropertyDetails db pid = none) ∧
    (findKey db.users uid = none →
      getUserProfile db uid = none ∧ getUserBookings db uid = []) ∧
    (findKey db.bookings bid = none → getBookingDetails db bid = none) ∧
    (findKey db.users uid = none →
      createBooking db uid pid ci co g pm sp t =
        (db, .error ("User " ++ uid ++ " not found"))) ∧
    (findKey db.bookings bid = none →
      cancelBooking db bid r t = (db, .error ("Booking " ++ toString bid ++ " not found"))) := by
  refine ⟨fun h => h, fun h => ⟨h, ?_⟩, fun h => h, fun h => ?_, fun h => ?_⟩
  · rw [getUserBookings, h]
  · rw [createBooking, h]
  · rw [cancelBooking, h]

theorem unknown_id_lookups_return_empty_witness :
    getPropertyDetails emptyDb "P1" = none ∧
    getUserProfile emptyDb "U1" = none ∧
    getUserBookings emptyDb "U1" = [] ∧
    getBookingDetails emptyDb 1 = none ∧
    createBooking emptyDb "U1" "P1" 0 1 1 "PM1" "" "D0" =
      (emptyDb, .error "User U1 not found") ∧
    cancelBooking emptyDb 1 "" "D0" = (emptyDb, .error "Booking 1 not found") := by
  obtain ⟨h1, h2, h3, h4, h5⟩ :=
    unknown_id_lookups_return_empty emptyDb "P1" "U1" 1 0 1 1 "PM1" "" "D0" ""
  exact ⟨h1 rfl, (h2 rfl).1, (h2 rfl).2, h3 rfl, h4 rfl, h5 rfl⟩

/-- C2: any validation failure in `create_booking` (unknown user, unknown
property, unknown payment method, guest count above capacity, empty or
inverted range, or any bad date in the range) produces an error, and every
erroring call leaves the database file unchanged. -/
theorem create_booking_atomic_on_failure (db : Db) (u pid : String) (ci co g : Nat)
    (pm sp t : String) :
    (exOk (createBooking db u pid ci co g pm sp t).2 = false →
      (createBooking db u pid ci co g pm sp t).1 = db) ∧
    ((findKey db.users u = none ∨
      findKey db.properties pid = none ∨
      (∃ user, findKey db.users u = some user ∧ pm ∉ user.payment_methods) ∨
      (∃ p, findKey db.properties pid = some p ∧ p.capacity_guests < g) ∨
      co ≤ ci ∨
      (∃ p, findKey db.properties pid = some p ∧ badRange p.availability ci co)) →
      exOk (createBooking db u pid ci co g pm sp t).2 = false) := by
  refine ⟨createBooking_error_frame db u pid ci co g pm sp t, fun hcond => ?_⟩
  cases hres : exOk (createBooking db u pid ci co g pm sp t).2 with
  | false => rfl
  | true =>
    exfalso
    rcases createBooking_shape db u pid ci co g pm sp t with ⟨e, he⟩ |
      ⟨user, p, nightly, b, hu, hp, hpm, hg, hc, hscan, hb, he⟩
    · rw [he] at hres
      simp [exOk] at hres
    · have hgood : ∀ d, ci ≤ d → d < co → goodDay p.availability d := fun d hd hdn =>
        (scanRange_ok_iff _ _ _).mp (by rw [hscan]; rfl) d hd (by omega)
      rcases hcond with h | h | ⟨user', hu', hpm'⟩ | ⟨p', hp', hg'⟩ | h |
        ⟨p', hp', d, hd1, hd2, hd3⟩
      · rw [h] at hu; cases hu
      · rw [h] at hp; cases hp
      · rw [hu] at hu'; cases hu'; exact hpm' hpm
      · rw [hp] at hp'; cases hp'; omega
      · omega
      · rw [hp] at hp'; cases hp'; exact hd3 (hgood d hd1 hd2)

theorem create_booking_atomic_on_failure_witness :
    exOk (createBooking sampleDb "U1" "P1" 3 3 1 "PM1" "" "D0").2 = false ∧
    (createBooking sampleDb "U1" "P1" 3 3 1 "PM1" "" "D0").1 = sampleDb := by
  have h := create_booking_atomic_on_failure sampleDb "U1" "P1" 3 3 1 "PM1" "" "D0"
  have herr := h.2 (Or.inr (Or.inr (Or.inr (Or.inr (Or.inl (le_refl 3))))))
  exact ⟨herr, h.1 herr⟩

/-- C9 counterexample: on a request violating both the capacity bound
(9 guests against capacity 4) and the payment-method check (unknown PMX),
`create_booking` reports the payment-method error, not CapacityExceeded. -/
theorem payment_checked_before_capacity_cex :
    (createBooking sampleDb "U1" "P1" 1 3 9 "PMX" "" "D0").2 =
      .error "Payment method PMX not found for user" ∧
    "Payment method PMX not found for user" ≠
      "Property can only accommodate 4 guests" := by
  exact ⟨rfl, by decide⟩

/-- C9 amended: `create_booking` validates the payment method before guest
capacity, so whenever the payment method is unknown the payment-method error
is reported even if the capacity constraint is also violated. -/
theorem payment_error_when_both_violated (db : Db) (u pid : String) (ci co g : Nat)
    (pm sp t : String) (user : User) (p : Property)
    (hu : findKey db.users u = some user) (hp : findKey db.properties pid = some p)
    (hpm : pm ∉ user.payment_methods) :
    createBooking db u pid ci co g pm sp t =
      (db, .error ("Payment method " ++ pm ++ " not found for user")) := by
  rw [createBooking]
  simp only [hu, hp]
  rw [if_pos hpm]

theorem payment_error_when_both_violated_witness :
    createBooking sampleDb "U1" "P1" 1 3 9 "PMX" "" "D0" =
      (sampleDb, .error "Payment method PMX not found for user") := by
  exact payment_error_when_both_violated sampleDb "U1" "P1" 1 3 9 "PMX" "" "D0"
    { payment_methods := ["PM1"], bookings := [] } sampleProperty rfl rfl (by decide)

/-- C7 counterexample: an absent date and a present-but-booked date produce
the very same `ValueError` message, so the two failure kinds are not
distinguishable by the caller. -/
theorem date_error_kinds_indistinguishable_cex :
    calculateBookingCost dbAbsent "P1" 0 1 = .error "Property not available on 0" ∧
    calculateBookingCost dbBooked "P1" 0 1 = .error "Property not available on 0" ∧
    calculateBookingCost dbAbsent "P1" 0 1 = calculateBookingCost dbBooked "P1" 0 1 := by
  exact ⟨rfl, rfl, rfl⟩

/-- C7 amended: both in `quote` and in `book`, the first failing date `d` of
the range — whether absent from the calendar or present with a non-available
status — produces the single error message `Property not available on d`,
naming that date; the two failure kinds are not distinguishable. -/
theorem first_failing_date_same_error (db : Db) (pid : String) (ci co d : Nat)
    (p : Property) (hp : findKey db.properties pid = some p)
    (hd1 : ci ≤ d) (hd2 : d < co)
    (hbad : ¬ goodDay p.availability d)
    (hfirst : ∀ d', ci ≤ d' → d' < d → goodDay p.availability d') :
    calculateBookingCost db pid ci co = .error (notAvailableMsg d) ∧
    ∀ u g pm sp t user, findKey db.users u = some user → pm ∈ user.payment_methods →
      g ≤ p.capacity_guests →
      createBooking db u pid ci co g pm sp t = (db, .error (notAvailableMsg d)) := by
  have hscan : scanRange p.availability ci (co - ci) = .error (notAvailableMsg d) :=
    scanRange_firstBad p.availability ci (co - ci) d hd1 (by omega) hbad hfirst
  constructor
  · rw [calculateBookingCost]
    simp only [hp]
    rw [if_neg (by omega : ¬ co ≤ ci), hscan]
  · intro u g pm sp t user hu hpm hg
    rw [createBooking]
    simp only [hu, hp]
    rw [if_neg (not_not.mpr hpm), if_neg (Nat.not_lt.mpr hg),
      if_neg (by omega : ¬ co ≤ ci), hscan]

theorem first_failing_date_same_error_witness :
    calculateBookingCost dbAbsent "P1" 0 1 = .error (notAvailableMsg 0) ∧
    createBooking dbAbsent "U1" "P1" 0 1 1 "PM1" "" "D0" =
      (dbAbsent, .error (notAvailableMsg 0)) := by
  have h := first_failing_date_same_error dbAbsent "P1" 0 1 0 absentProp rfl
    (le_refl 0) (by omega)
    (by rintro ⟨e, he, _⟩; simp [absentProp] at he)
    (by omega)
  exact ⟨h.1, h.2 "U1" 1 "PM1" "" "D0" { payment_methods := ["PM1"], bookings := [] }
    rfl (by decide) (by decide)⟩

/-- C4: with the per-call load/save of the shared database file and no lock,
two concurrent `book` calls for overlapping ranges on the same property can
both load before either saves; in that interleaving both calls succeed,
violating the at-most-one-succeeds requirement. -/
theorem concurrent_overlapping_books_both_succeed :
    reqA.property_id = reqB.property_id ∧
    dateIn reqA.check_in reqA.check_out 2 ∧
    dateIn reqB.check_in reqB.check_out 2 ∧
    (runSchedule reqA reqB sampleDb
      [.loadA, .loadB, .commitA, .commitB]).resA.map exOk = some true ∧
    (runSchedule reqA reqB sampleDb
      [.loadA, .loadB, .commitA, .commitB]).resB.map exOk = some true := by
  refine ⟨rfl, ⟨?_, ?_⟩, ⟨?_, ?_⟩, rfl, rfl⟩ <;> decide

theorem cancelBooking_ok_of (db : Db) (bid : Nat) (r t : String) (b : Booking) (p : Property)
    (hb : findKey db.bookings bid = some b) (h1 : b.status ≠ "cancelled")
    (h2 : b.status ≠ "completed") (hp : findKey db.properties b.property_id = some p) :
    cancelBooking db bid r t =
      ({ db with
          bookings := updateKey db.bookings bid (fun _ =>
            { b with
              status := "cancelled"
              cancellation_reason := some r
              cancellation_date := some t })
          properties := updateKey db.properties b.property_id (fun q =>
            { q with
              availability := setRange q.availability "available" b.check_in_date
                (b.check_out_date - b.check_in_date) }) },
       .ok { b with
              status := "cancelled"
              cancellation_reason := some r
              cancellation_date := some t }) := by
  rw [cancelBooking]
  simp only [hb]
  rw [if_neg h1, if_neg h2]
  simp only [hp]

/-- C6: `cancel_booking` fails BookingNotFound on an unknown id, fails
AlreadyCancelled on a `cancelled` booking, fails CannotCancelCompleted on a
`completed` one; otherwise it sets the status to `cancelled`, records the
reason and cancellation date, and sets every date of the booking's range that
exists in the property's calendar back to `available`, silently skipping
absent dates and leaving all other dates and properties unchanged. -/
theorem cancel_booking_contract (db : Db) (bid : Nat) (reason today : String) :
    (findKey db.bookings bid = none →
      cancelBooking db bid reason today =
        (db, .error ("Booking " ++ toString bid ++ " not found"))) ∧
    (∀ b, findKey db.bookings bid = some b → b.status = "cancelled" →
      cancelBooking db bid reason today = (db, .error "Booking is already cancelled")) ∧
    (∀ b, findKey db.bookings bid = some b → b.status ≠ "cancelled" →
      b.status = "completed" →
      cancelBooking db bid reason today = (db, .error "Cannot cancel completed booking")) ∧
    (∀ b p, findKey db.bookings bid = some b → b.status ≠ "cancelled" →
      b.status ≠ "completed" → findKey db.properties b.property_id = some p →
      (cancelBooking db bid reason today).2 =
        .ok { b with
              status := "cancelled"
              cancellation_reason := some reason
              cancellation_date := some today } ∧
      findKey (cancelBooking db bid reason today).1.bookings bid =
        some { b with
               status := "cancelled"
               cancellation_reason := some reason
               cancellation_date := some today } ∧
      (∀ pid', pid' ≠ b.property_id →
        findKey (cancelBooking db bid reason today).1.properties pid' =
          findKey db.properties pid') ∧
      ∃ p', findKey (cancelBooking db bid reason today).1.properties b.property_id =
          some p' ∧
        p'.capacity_guests = p.capacity_guests ∧
        ∀ d, p'.availability d =
          if b.check_in_date ≤ d ∧ d < b.check_out_date then
            (p.availability d).map (fun e => { e with status := "available" })
          else p.availability d) := by
  refine ⟨fun h => ?_, fun b hb hst => ?_, fun b hb h1 hst => ?_,
    fun b p hb h1 h2 hp => ?_⟩
  · rw [cancelBooking]
    simp only [h]
  · rw [cancelBooking]
    simp only [hb]
    rw [if_pos hst]
  · rw [cancelBooking]
    simp only [hb]
    rw [if_neg h1, if_pos hst]
  · rw [cancelBooking_ok_of db bid reason today b p hb h1 h2 hp]
    dsimp only
    refine ⟨rfl, ?_, fun pid' hpid' => findKey_updateKey_ne _ _ _ _ hpid', ?_⟩
    · rw [findKey_updateKey_self, hb]
      rfl
    · refine ⟨{ p with
          availability := setRange p.availability "available" b.check_in_date
            (b.check_out_date - b.check_in_date) }, ?_, rfl, fun d => ?_⟩
      · rw [findKey_updateKey_self, hp]
        rfl
      · dsimp only
        rw [setRange_apply]
        split_ifs with hA hB hB
        · rfl
        · omega
        · omega
        · rfl

theorem cancel_booking_contract_witness :
    cancelBooking emptyDb 2 "" "D1" = (emptyDb, .error "Booking 2 not found") ∧
    exOk (cancelBooking bookedDb 1 "changed plans" "D1").2 = true := by
  refine ⟨(cancel_booking_contract emptyDb 2 "" "D1").1 rfl, ?_⟩
  have h := (cancel_booking_contract bookedDb 1 "changed plans" "D1").2.2.2 bkSample
    { capacity_guests := 4, availability := setRange sampleAvail "booked" 1 2 }
    rfl (by decide) (by decide) rfl
  rw [h.1]
  rfl

/-- C5: after a successful booking and its successful cancellation, the
property's calendar is exactly as before the booking (release is the exact
inverse of reserve), and booking the very same property and range again with
the same otherwise-valid request succeeds. -/
theorem cancel_then_rebook_succeeds (db0 db1 db2 : Db) (u pid : String)
    (ci co g : Nat) (pm sp t r t' t2 : String) (b b' : Booking)
    (h1 : createBooking db0 u pid ci co g pm sp t = (db1, .ok b))
    (h2 : cancelBooking db1 b.booking_id r t' = (db2, .ok b')) :
    (∀ p0, findKey db0.properties pid = some p0 →
      ∃ p2, findKey db2.properties pid = some p2 ∧
        p2.capacity_guests = p0.capacity_guests ∧
        ∀ d, p2.availability d = p0.availability d) ∧
    exOk (createBooking db2 u pid ci co g pm sp t2).2 = true := by
  rcases createBooking_shape db0 u pid ci co g pm sp t with ⟨e, he⟩ |
    ⟨user, p, nightly, bb, hu, hp, hpm, hg, hc, hscan, hbb, he⟩
  · rw [he] at h1
    exact absurd (congrArg Prod.snd h1) (by simp)
  · rw [he] at h1
    rw [Prod.mk.injEq] at h1
    obtain ⟨hdb1, hok1⟩ := h1
    injection hok1 with hb1
    subst hb1
    have hdb1 := hdb1.symm
    have hgood : ∀ d, ci ≤ d → d < co → goodDay p.availability d := fun d hd hdn =>
      (scanRange_ok_iff _ _ _).mp (by rw [hscan]; rfl) d hd (by omega)
    have hbid : bb.booking_id = nextBookingId db0 := by rw [hbb]
    have hpidb : bb.property_id = pid := by rw [hbb]
    have hcib : bb.check_in_date = ci := by rw [hbb]
    have hcob : bb.check_out_date = co := by rw [hbb]
    rcases cancelBooking_shape db1 bb.booking_id r t' with ⟨e2, he2⟩ |
      ⟨bc, hbc, hs1, hs2, ⟨pp, hpp⟩, he2⟩
    · rw [he2] at h2
      exact absurd (congrArg Prod.snd h2) (by simp)
    · rw [he2] at h2
      rw [Prod.mk.injEq] at h2
      obtain ⟨hdb2, hok2⟩ := h2
      have hdb2 := hdb2.symm
      have hbceq : bc = bb := by
        rw [hdb1] at hbc
        dsimp only at hbc
        rw [findKey, if_pos hbid.symm] at hbc
        injection hbc with h'
        exact h'.symm
      subst hbceq
      have hprops2 : ∀ q, findKey db2.properties q =
          if q = pid then
            (findKey db0.properties pid).map (fun p0 =>
              { capacity_guests := p0.capacity_guests
                availability := setRange
                  (setRange p0.availability "booked" ci (co - ci))
                  "available" ci (co - ci) })
          else findKey db0.properties q := by
        intro q
        by_cases hq : q = pid
        · subst hq
          rw [if_pos rfl, hdb2]
          dsimp only
          rw [hpidb, hcib, hcob, findKey_updateKey_self, hdb1]
          dsimp only
          rw [findKey_updateKey_self, hp]
          rfl
        · rw [if_neg hq, hdb2]
          dsimp only
          rw [findKey_updateKey_ne _ _ _ _ (by rw [hpidb]; exact hq), hdb1]
          dsimp only
          rw [findKey_updateKey_ne _ _ _ _ hq]
      have hrestore : ∀ d,
          setRange (setRange p.availability "booked" ci (co - ci))
            "available" ci (co - ci) d = p.availability d := by
        intro d
        rw [setRange_apply, setRange_apply]
        by_cases hd : ci ≤ d ∧ d < ci + (co - ci)
        · rw [if_pos hd, if_pos hd]
          obtain ⟨e0, he0, hst0⟩ := hgood d hd.1 (by omega)
          obtain ⟨st0, pr0⟩ := e0
          dsimp only at hst0
          subst hst0
          rw [he0]
          rfl
        · rw [if_neg hd, if_neg hd]
      constructor
      · intro p0 hp0
        have hpe : p0 = p := by
          have h12 : some p = some p0 := hp.symm.trans hp0
          injection h12 with h'
          exact h'.symm
        subst hpe
        refine ⟨{ capacity_guests := p0.capacity_guests
                  availability := setRange
                    (setRange p0.availability "booked" ci (co - ci))
                    "available" ci (co - ci) }, ?_, rfl, fun d => hrestore d⟩
        rw [hprops2, if_pos rfl, hp0]
        rfl
      · have husers2 : findKey db2.users u =
            some { user with bookings := user.bookings ++ [nextBookingId db0] } := by
          rw [hdb2]
          dsimp only
          rw [hdb1]
          dsimp only
          rw [findKey_updateKey_self, hu]
          rfl
        exact createBooking_ok_of db2 u pid ci co g pm sp t2
          { user with bookings := user.bookings ++ [nextBookingId db0] }
          { capacity_guests := p.capacity_guests
            availability := setRange
              (setRange p.availability "booked" ci (co - ci))
              "available" ci (co - ci) }
          husers2
          (by rw [hprops2, if_pos rfl, hp]; rfl)
          hpm hg hc
          (fun d hd hdn => by
            obtain ⟨e0, he0, hs0⟩ := hgood d hd hdn
            exact ⟨e0, by dsimp only; rw [hrestore d]; exact he0, hs0⟩)

theorem cancel_then_rebook_succeeds_witness :
    exOk (createBooking cancelledDb "U1" "P1" 1 3 2 "PM1" "" "D2").2 = true := by
  have h := cancel_then_rebook_succeeds sampleDb bookedDb cancelledDb "U1" "P1" 1 3 2
    "PM1" "" "D0" "changed plans" "D1" "D2" bkSample
    { bkSample with
      status := "cancelled"
      cancellation_reason := some "changed plans"
      cancellation_date := some "D1" }
    rfl rfl
  exact h.2

theorem dbInv_createBooking (db : Db) (u pid : String) (ci co g : Nat)
    (pm sp t : String) (h : DbInv db) :
    DbInv (createBooking db u pid ci co g pm sp t).1 := by
  rcases createBooking_shape db u pid ci co g pm sp t with ⟨e, he⟩ |
    ⟨user, p, nightly, b, hu, hp, hpm, hg, hc, hscan, hb, he⟩
  · rw [he]
    exact h
  · rw [he]
    dsimp only
    have hgood : ∀ d, ci ≤ d → d < co → goodDay p.availability d := fun d hd hdn =>
      (scanRange_ok_iff _ _ _).mp (by rw [hscan]; rfl) d hd (by omega)
    have hpidb : b.property_id = pid := by rw [hb]
    have hcib : b.check_in_date = ci := by rw [hb]
    have hcob : b.check_out_date = co := by rw [hb]
    constructor
    · intro x hx hax d hdx
      dsimp only at hx
      rcases List.mem_cons.mp hx with hx1 | hx2
      · subst hx1
        dsimp only at hax hdx ⊢
        rw [hcib, hcob] at hdx
        rw [hpidb]
        obtain ⟨hd1, hd2⟩ := hdx
        obtain ⟨e0, he0, hs0⟩ := hgood d hd1 hd2
        obtain ⟨st0, pr0⟩ := e0
        refine ⟨{ p with
            availability := setRange p.availability "booked" ci (co - ci) },
          { status := "booked", price_per_night := pr0 }, ?_, ?_, rfl⟩
        · dsimp only
          rw [findKey_updateKey_self, hp]
          rfl
        · dsimp only
          rw [setRange_apply, if_pos ⟨hd1, by omega⟩, he0]
          rfl
      · obtain ⟨p0, e0, hf0, ha0, hs0⟩ := h.booked x hx2 hax d hdx
        by_cases hpx : x.2.property_id = pid
        · have hpeq : p0 = p := by
            rw [hpx] at hf0
            have h12 : some p = some p0 := hp.symm.trans hf0
            injection h12 with h'
            exact h'.symm
          subst hpeq
          have hdnot : ¬ (ci ≤ d ∧ d < co) := by
            rintro ⟨hd1, hd2⟩
            obtain ⟨e1, he1, hs1⟩ := hgood d hd1 hd2
            have h12 : some e0 = some e1 := ha0.symm.trans he1
            injection h12 with h'
            rw [← h', hs0] at hs1
            exact absurd hs1 (by decide)
          refine ⟨{ p0 with
              availability := setRange p0.availability "booked" ci (co - ci) },
            e0, ?_, ?_, hs0⟩
          · rw [hpx]
            dsimp only
            rw [findKey_updateKey_self, hp]
            rfl
          · dsimp only
            rw [setRange_apply, if_neg (by omega)]
            exact ha0
        · refine ⟨p0, e0, ?_, ha0, hs0⟩
          dsimp only
          rw [findKey_updateKey_ne _ _ _ _ hpx]
          exact hf0
    · dsimp only
      rw [List.pairwise_cons]
      constructor
      · intro y hy hax hay hpidxy d hdd
        obtain ⟨hdx, hdy⟩ := hdd
        dsimp only at hpidxy hdx
        rw [hpidb] at hpidxy
        rw [hcib, hcob] at hdx
        obtain ⟨p0, e0, hf0, ha0, hs0⟩ := h.booked y hy hay d hdy
        rw [← hpidxy] at hf0
        have hpeq : p0 = p := by
          have h12 : some p = some p0 := hp.symm.trans hf0
          injection h12 with h'
          exact h'.symm
        subst hpeq
        obtain ⟨e1, he1, hs1⟩ := hgood d hdx.1 hdx.2
        have h12 : some e0 = some e1 := ha0.symm.trans he1
        injection h12 with h'
        rw [← h', hs0] at hs1
        exact absurd hs1 (by decide)
      · exact h.disjoint

theorem dbInv_cancelBooking (db : Db) (bid : Nat) (r t : String) (h : DbInv db) :
    DbInv (cancelBooking db bid r t).1 := by
  rcases cancelBooking_shape db bid r t with ⟨e, he⟩ | ⟨b, hb, h1, h2, ⟨pp, hpp⟩, he⟩
  · rw [he]
    exact h
  · rw [he]
    dsimp only
    have hmemB : (bid, b) ∈ db.bookings := findKey_mem _ _ _ hb
    have hsymm : Symmetric (fun x y : Nat × Booking =>
        activeB x.2 → activeB y.2 → x.2.property_id = y.2.property_id →
        ∀ d, ¬ (dateIn x.2.check_in_date x.2.check_out_date d ∧
                dateIn y.2.check_in_date y.2.check_out_date d)) := by
      intro x y hxy hay hax hpid d hdd
      exact hxy hax hay hpid.symm d ⟨hdd.2, hdd.1⟩
    constructor
    · intro x hx hax d hdx
      dsimp only [updateKey] at hx
      obtain ⟨x0, hx0, hfx⟩ := List.mem_map.mp hx
      by_cases hkey : x0.1 = bid
      · rw [if_pos hkey] at hfx
        rw [← hfx] at hax
        exact absurd rfl hax
      · rw [if_neg hkey] at hfx
        subst hfx
        obtain ⟨p0, e0, hf0, ha0, hs0⟩ := h.booked x0 hx0 hax d hdx
        by_cases hpx : x0.2.property_id = b.property_id
        · have hne : x0 ≠ (bid, b) := fun hh => hkey (by rw [hh])
          have hR := h.disjoint.forall hsymm hx0 hmemB hne
          have hdisj := hR hax h1 hpx
          have hdnotb : ¬ (b.check_in_date ≤ d ∧ d < b.check_out_date) :=
            fun hdb => hdisj d ⟨hdx, hdb⟩
          have hpeq : p0 = pp := by
            rw [hpx] at hf0
            have h12 : some pp = some p0 := hpp.symm.trans hf0
            injection h12 with h'
            exact h'.symm
          subst hpeq
          refine ⟨{ p0 with
              availability := setRange p0.availability "available" b.check_in_date
                (b.check_out_date - b.check_in_date) }, e0, ?_, ?_, hs0⟩
          · rw [hpx]
            dsimp only
            rw [findKey_updateKey_self, hpp]
            rfl
          · dsimp only
            rw [setRange_apply, if_neg (by omega)]
            exact ha0
        · refine ⟨p0, e0, ?_, ha0, hs0⟩
          dsimp only
          rw [findKey_updateKey_ne _ _ _ _ hpx]
          exact hf0
    · dsimp only [updateKey]
      rw [List.pairwise_map]
      refine List.Pairwise.imp ?_ h.disjoint
      intro a c hac hfa hfc hpidac d hdd
      by_cases hka : a.1 = bid
      · rw [if_pos hka] at hfa
        exact absurd rfl hfa
      · by_cases hkc : c.1 = bid
        · rw [if_pos hkc] at hfc
          exact absurd rfl hfc
        · rw [if_neg hka] at hfa hpidac hdd
          rw [if_neg hkc] at hfc hpidac hdd
          exact hac hfa hfc hpidac d hdd

theorem dbInv_reachable (db0 db : Db) (h0 : DbInv db0) (hr : Reachable db0 db) :
    DbInv db := by
  induction hr with
  | refl => exact h0
  | tail _ hstep ih =>
    cases hstep with
    | book u pid ci co g pm sp t => exact dbInv_createBooking _ u pid ci co g pm sp t ih
    | cancel bid r t => exact dbInv_cancelBooking _ bid r t ih

theorem active_booking_blocks_range (db : Db) (hInv : DbInv db) (x : Nat × Booking)
    (hx : x ∈ db.bookings) (hax : activeB x.2) :
    (∀ d, dateIn x.2.check_in_date x.2.check_out_date d → bookedOn db x.2.property_id d) ∧
    ∀ s e d, s ≤ d → d < e → dateIn x.2.check_in_date x.2.check_out_date d →
      (∃ d', calculateBookingCost db x.2.property_id s e = .error (notAvailableMsg d')) ∧
      (∀ u g pm sp t, exOk (createBooking db u x.2.property_id s e g pm sp t).2 = false) := by
  refine ⟨hInv.booked x hx hax, fun s e d hsd hde hdx => ?_⟩
  obtain ⟨p, e0, hf, ha, hs⟩ := hInv.booked x hx hax d hdx
  have hbadd : ¬ goodDay p.availability d := by
    rintro ⟨e1, he1, hs1⟩
    have h12 : some e0 = some e1 := ha.symm.trans he1
    injection h12 with h'
    rw [← h', hs] at hs1
    exact absurd hs1 (by decide)
  constructor
  · cases hres : scanRange p.availability s (e - s) with
    | ok l =>
      exact absurd ((scanRange_ok_iff _ _ _).mp (by rw [hres]; rfl) d hsd (by omega)) hbadd
    | error emsg =>
      obtain ⟨d', _, _, hmsg, _, _⟩ := scanRange_error_shape _ _ _ _ hres
      refine ⟨d', ?_⟩
      rw [calculateBookingCost]
      simp only [hf]
      rw [if_neg (by omega : ¬ e ≤ s), hres, hmsg]
  · intro u g pm sp t
    cases hres2 : exOk (createBooking db u x.2.property_id s e g pm sp t).2 with
    | false => rfl
    | true =>
      exfalso
      rcases createBooking_shape db u x.2.property_id s e g pm sp t with ⟨e', he'⟩ |
        ⟨user, p', nightly, b', hu', hp', _, _, hc', hscan', _, he'⟩
      · rw [he'] at hres2
        simp [exOk] at hres2
      · have hpe : p' = p := by
          have h12 : some p = some p' := hf.symm.trans hp'
          injection h12 with h'
          exact h'.symm
        subst hpe
        exact hbadd ((scanRange_ok_iff _ _ _).mp (by rw [hscan']; rfl) d hsd (by omega))

/-- C1: in every state reachable by `create_booking` / `cancel_booking` calls
from a database satisfying the invariant, no two bookings whose status is not
`cancelled` reference the same property with overlapping half-open date
ranges; every date of such a booking's range is marked `booked` on its
property, and while it stays non-cancelled any `book` or `quote` over an
overlapping range on that property fails, the quote with the
not-available error naming a date. -/
theorem no_double_booking_invariant (db0 db : Db) (h0 : DbInv db0)
    (hr : Reachable db0 db) :
    (db.bookings.Pairwise fun x y =>
      activeB x.2 → activeB y.2 → x.2.property_id = y.2.property_id →
      ∀ d, ¬ (dateIn x.2.check_in_date x.2.check_out_date d ∧
              dateIn y.2.check_in_date y.2.check_out_date d)) ∧
    ∀ x ∈ db.bookings, activeB x.2 →
      (∀ d, dateIn x.2.check_in_date x.2.check_out_date d →
        bookedOn db x.2.property_id d) ∧
      (∀ s e d, s ≤ d → d < e → dateIn x.2.check_in_date x.2.check_out_date d →
        (∃ d', calculateBookingCost db x.2.property_id s e =
          .error (notAvailableMsg d')) ∧
        (∀ u g pm sp t,
          exOk (createBooking db u x.2.property_id s e g pm sp t).2 = false)) := by
  have hI := dbInv_reachable db0 db h0 hr
  exact ⟨hI.disjoint, fun x hx hax => active_booking_blocks_range db hI x hx hax⟩

theorem no_double_booking_invariant_witness :
    exOk (calculateBookingCost bookedDb "P1" 2 4) = false ∧
    exOk (createBooking bookedDb "U1" "P1" 2 4 1 "PM1" "" "D1").2 = false := by
  have h0 : DbInv sampleDb := by
    constructor
    · intro x hx
      exact absurd hx (List.not_mem_nil x)
    · exact List.Pairwise.nil
  have hr : Reachable sampleDb bookedDb :=
    Relation.ReflTransGen.single (Step.book "U1" "P1" 1 3 2 "PM1" "" "D0" sampleDb)
  have h := no_double_booking_invariant sampleDb bookedDb h0 hr
  have hx : ((1 : Nat), bkSample) ∈ bookedDb.bookings := by decide
  have hax : activeB bkSample := (by decide : ("confirmed" : String) ≠ "cancelled")
  obtain ⟨hq, hbk⟩ := (h.2 (1, bkSample) hx hax).2 2 4 2 (le_refl 2) (by omega)
    ⟨by decide, by decide⟩
  obtain ⟨d', hq'⟩ := hq
  constructor
  · show exOk (calculateBookingCost bookedDb bkSample.property_id 2 4) = false
    rw [hq']
    rfl
  · exact hbk "U1" 1 "PM1" "" "D1"
